import Mathlib

/-!
Shallow embedding of the GeoJSON paddock ingestion pipeline
(`src/server/routes/upload.js`, `src/server/models/Paddock.js`,
`src/server/models/Project.js`, `src/client/src/utils/index.ts`).

JavaScript dynamic values that the validators inspect are modelled by
`JVal` (an absent key / `undefined` is `Option.none` at the use site);
JavaScript numbers are modelled by `JNum` (finite rational, `NaN`, or a
signed infinity).  Floating-point rounding is not modelled: all finite
numbers are exact rationals.
-/

namespace GeoJson

/-- A JavaScript value as far as the pipeline's property checks see it.
`undefined` (absent key) is represented by `none : Option JVal`. -/
inductive JVal where
  | vStr (s : String)
  | vNum (q : ℚ)
  | vNaN
  | vInf (neg : Bool)
  | vBool (b : Bool)
  | vNull
deriving DecidableEq, Repr

/-- A JavaScript number: finite (exact rational), `NaN`, or `±Infinity`. -/
inductive JNum where
  | fin (q : ℚ)
  | nan
  | inf (neg : Bool)
deriving DecidableEq, Repr

def JNum.isNaN : JNum → Bool
  | .nan => true
  | _ => false

/-- JS truthiness of a number. -/
def JNum.truthy : JNum → Bool
  | .fin q => decide (q ≠ 0)
  | .nan => false
  | .inf _ => true

/-- JS `x < 0` on a number (`NaN < 0` is false). -/
def JNum.ltZero : JNum → Bool
  | .fin q => decide (q < 0)
  | .nan => false
  | .inf neg => neg

/-- Multiply a JS number by a positive rational constant. -/
def JNum.mulPos (x : JNum) (c : ℚ) : JNum :=
  match x with
  | .fin q => .fin (q * c)
  | .nan => .nan
  | .inf neg => .inf neg

/-- JS truthiness of a value (`none` = `undefined`, falsy). -/
def jsTruthy : Option JVal → Bool
  | none => false
  | some (.vStr s) => decide (s ≠ "")
  | some (.vNum q) => decide (q ≠ 0)
  | some .vNaN => false
  | some (.vInf _) => true
  | some (.vBool b) => b
  | some .vNull => false

/-- JS `a && b`. -/
def jsAnd (a b : Option JVal) : Option JVal := if jsTruthy a then b else a

/-- JS `a || b`. -/
def jsOr (a b : Option JVal) : Option JVal := if jsTruthy a then a else b

def isWs (c : Char) : Bool := c = ' ' ∨ c = '\t' ∨ c = '\n' ∨ c = '\r'

def isDigit (c : Char) : Bool := '0' ≤ c ∧ c ≤ '9'

def digitsVal (cs : List Char) : ℕ :=
  cs.foldl (fun n c => 10 * n + (c.toNat - '0'.toNat)) 0

/-- `parseFloat` on a string: skip leading whitespace, optional sign, then the
longest prefix that is `Infinity` or a decimal literal (integer part and/or
fraction, optional exponent); `NaN` when no digits are found. -/
def parseFloatStr (s : String) : JNum :=
  let cs := s.data.dropWhile isWs
  let (neg, cs) : Bool × List Char :=
    match cs with
    | '+' :: r => (false, r)
    | '-' :: r => (true, r)
    | _ => (false, cs)
  if cs.take 8 = "Infinity".data then .inf neg
  else
    let intDs := cs.takeWhile isDigit
    let rest := cs.dropWhile isDigit
    let (fracDs, rest2) : List Char × List Char :=
      match rest with
      | '.' :: r => (r.takeWhile isDigit, r.dropWhile isDigit)
      | _ => ([], rest)
    if intDs = [] ∧ fracDs = [] then .nan
    else
      let mant : ℚ := (digitsVal intDs : ℚ) +
        (digitsVal fracDs : ℚ) / ((10 : ℚ) ^ fracDs.length)
    let expPart : ℤ :=
      match rest2 with
      | 'e' :: r => parseExp r
      | 'E' :: r => parseExp r
      | _ => 0
    let v : ℚ := mant * (10 : ℚ) ^ expPart
    .fin (if neg then -v else v)
where
  /-- Exponent part after `e`/`E`: optional sign then digits; 0 if absent
  (JS then keeps only the mantissa prefix). -/
  parseExp (r : List Char) : ℤ :=
    match r with
    | '+' :: d => if d.takeWhile isDigit = [] then 0 else (digitsVal (d.takeWhile isDigit) : ℤ)
    | '-' :: d => if d.takeWhile isDigit = [] then 0 else -(digitsVal (d.takeWhile isDigit) : ℤ)
    | d => if d.takeWhile isDigit = [] then 0 else (digitsVal (d.takeWhile isDigit) : ℤ)

/-- JS `parseFloat(x)`: the argument is coerced to a string first, so
non-string values behave as their string forms do. -/
def parseFloat : Option JVal → JNum
  | none => .nan
  | some (.vStr s) => parseFloatStr s
  | some (.vNum q) => .fin q
  | some .vNaN => .nan
  | some (.vInf neg) => .inf neg
  | some (.vBool _) => .nan
  | some .vNull => .nan

/-- Decimal string of a rational with a power-of-ten denominator; other
denominators (which no JS float produces) fall back to a fraction form.
Only exactness of the string as an identifier matters to the pipeline
(the cast targets are display names), not JS float formatting. -/
def ratToString (q : ℚ) : String :=
  if q.den = 1 then toString q.num
  else toString q.num ++ "/" ++ toString q.den

/-- JS `String(x)` / `x.toString()` on the modelled values. -/
def jvalToString : JVal → String
  | .vStr s => s
  | .vNum q => ratToString q
  | .vNaN => "NaN"
  | .vInf neg => if neg then "-Infinity" else "Infinity"
  | .vBool b => if b then "true" else "false"
  | .vNull => "null"

end GeoJson

namespace GeoJson

/-- The property bag of a feature, restricted to the keys the pipeline
reads; every key may be absent (`none` = `undefined`).  The full bag is
also carried verbatim into `Record.originalProperties`. -/
structure Props where
  id : Option JVal
  paddockId : Option JVal
  name : Option JVal
  paddock_name : Option JVal
  owner : Option JVal
  Project__Name : Option JVal
  project_name : Option JVal
  area_acres : Option JVal
deriving DecidableEq, Repr

def emptyProps : Props := ⟨none, none, none, none, none, none, none, none⟩

/-- A geometry object.  `coordinates = none` models an absent, null or
non-array `coordinates` value (all of which trip the same check in
`validateFeature`); positions are lists of numbers of any length, as in
the source (`[[[Number]]]`). -/
structure Geometry where
  gtype : Option JVal
  coordinates : Option (List (List (List ℚ)))
deriving DecidableEq, Repr

/-- A GeoJSON feature as the validators see it.  `properties = none` and
`geometry = none` model absent/null (falsy) values. -/
structure Feature where
  ftype : Option JVal
  properties : Option Props
  geometry : Option Geometry
deriving DecidableEq, Repr

/-- `features` field of a raw document: not an array (including absent),
or an array of features. -/
inductive FeaturesField where
  | notArray
  | arr (fs : List Feature)
deriving DecidableEq, Repr

/-- A raw parsed JSON input to `validateGeoJSON`: either not a non-null,
non-array object at all, or an object carrying feature fields (used when
`type` is `"Feature"`) and a `features` field (used when `type` is
`"FeatureCollection"`). -/
inductive RawInput where
  | nonObject
  | obj (self : Feature) (features : FeaturesField)
deriving DecidableEq, Repr

/-- `validateGeoJSON` from `src/server/routes/upload.js` (lines 35-64):
structural validation, wrapping a single `Feature` into a collection. -/
def validateGeoJSON : RawInput → Except String (List Feature)
  | .nonObject => .error "Invalid data: must be a non-null object"
  | .obj self feats =>
    if self.ftype = some (JVal.vStr "Feature") then .ok [self]
    else if self.ftype = some (JVal.vStr "FeatureCollection") then
      match feats with
      | .notArray => .error "Invalid GeoJSON: features must be an array"
      | .arr fs =>
        if fs.length = 0 then .error "Invalid GeoJSON: features array cannot be empty"
        else if fs.length > 10000 then
          .error "Invalid GeoJSON: too many features (maximum 10,000 allowed)"
        else .ok fs
    else .error "Invalid GeoJSON: type must be \"Feature\" or \"FeatureCollection\""

def msgAreaAcres : String := "Feature must have valid area_acres property"

/-- `validateFeature` from `src/server/routes/upload.js` (lines 67-109):
per-feature field checks, collecting one message per violated rule. -/
def validateFeature (f : Feature) : List String :=
  (if ¬ jsTruthy f.ftype ∨ ¬ f.ftype = some (JVal.vStr "Feature") then
    ["Feature must have type \"Feature\""] else [])
  ++ (match f.properties with
      | none => ["Feature must have properties"]
      | some props =>
        (if ¬ jsTruthy props.id ∧ ¬ jsTruthy props.paddockId then
          ["Feature must have id or paddockId property"] else [])
        ++ (if ¬ jsTruthy props.name ∧ ¬ jsTruthy props.paddock_name then
          ["Feature must have name or paddock_name property"] else [])
        ++ (if ¬ jsTruthy props.owner then
          ["Feature must have owner property"] else [])
        ++ (if ¬ jsTruthy props.Project__Name ∧ ¬ jsTruthy props.project_name then
          ["Feature must have Project__Name or project_name property"] else [])
        ++ (if ¬ jsTruthy props.area_acres ∨ (parseFloat props.area_acres).isNaN then
          [msgAreaAcres] else []))
  ++ (match f.geometry with
      | none => ["Feature must have geometry"]
      | some g =>
        if ¬ g.gtype = some (JVal.vStr "Polygon") then
          ["Feature geometry must be a Polygon"]
        else if g.coordinates = none then
          ["Feature geometry must have coordinates array"]
        else [])

end GeoJson

namespace GeoJson

/-- One saved paddock document (`src/server/models/Paddock.js`).  Fields no
claim refers to (`uploadedAt`, `validationErrors`, `centroid`) are omitted;
the `centroid` pre-save computation cannot affect any claim because mongoose
validation runs before user pre-save hooks, so centroid is never validated. -/
structure Record where
  paddockId : Option String
  name : String
  owner : String
  projectName : String
  areaAcres : JNum
  geometry : Option Geometry
  areaHectares : Option JNum
  calculatedAreaHectares : Option JNum
  uploadBatch : String
  isValid : Bool
  originalProperties : Props
deriving DecidableEq, Repr

/-- String cast of a selected property value (mongoose casts the assigned
value with `String(x)`; `null` stays null, i.e. unset). -/
def castOptString : Option JVal → Option String
  | none => none
  | some .vNull => none
  | some v => some (jvalToString v)

/-- JS `a || b || "d"` followed by the mongoose string cast (the result of
the chain is always truthy, so the cast never sees null/undefined). -/
def selectString (a b : Option JVal) (d : String) : String :=
  jvalToString ((jsOr a (jsOr b (some (JVal.vStr d)))).getD (JVal.vStr d))

/-- JS `x || 0` on a number. -/
def JNum.orZero (x : JNum) : JNum := if x.truthy then x else .fin 0

/-- `Paddock.createFromGeoJSONFeature` (`Paddock.js` lines 154-167).  The
route only calls it after `validateFeature` passed, so `properties` is
present; the `getD` default is unreachable. -/
def createFromGeoJSONFeature (f : Feature) (batch : String) : Record :=
  let props := f.properties.getD emptyProps
  { paddockId := castOptString
      (jsOr (jsAnd props.id ((props.id).map (fun x => JVal.vStr (jvalToString x))))
            (jsAnd props.paddockId ((props.paddockId).map (fun x => JVal.vStr (jvalToString x)))))
  , name := selectString props.name props.paddock_name "Unnamed Paddock"
  , owner := selectString props.owner none "Unknown Owner"
  , projectName := selectString props.Project__Name props.project_name "Unknown Project"
  , areaAcres := (parseFloat props.area_acres).orZero
  , geometry := f.geometry
  , areaHectares := none
  , calculatedAreaHectares := none
  , uploadBatch := batch
  , isValid := true
  , originalProperties := props }

/-- JS array indexing chain `ring[i][j]` where out-of-range access yields
`undefined` (and `undefined === undefined` is true). -/
def ringAt (r0 : List (List ℚ)) (i j : ℕ) : Option ℚ :=
  (r0.get? i).bind (fun pos => pos.get? j)

/-- The `polygonSchema` coordinates validator (`Paddock.js` lines 34-41):
at least one ring, first ring has at least 4 points, and the first and last
points of the first ring agree in their first two components (JS `===`,
with out-of-range indexing giving `undefined`). -/
def polyValidator (coords : List (List (List ℚ))) : Bool :=
  match coords with
  | [] => false
  | r0 :: _ =>
    decide (4 ≤ r0.length) &&
    decide (ringAt r0 0 0 = ringAt r0 (r0.length - 1) 0) &&
    decide (ringAt r0 0 1 = ringAt r0 (r0.length - 1) 1)

def optStrTruthy : Option String → Bool
  | some s => decide (s ≠ "")
  | none => false

def optNumTruthy : Option JNum → Bool
  | some x => x.truthy
  | none => false

/-- Mongoose document validation of a paddock at `save()` time: required
string fields non-null and non-empty, `areaAcres` required with `min: 0`,
`min: 0` on the derived area fields when set (they are unset at validation
time in the upload routes), geometry required with `type` in the `Polygon`
enum and the `polygonSchema` coordinates validator.  Validation runs on the
document as constructed, before the pre-save hook. -/
def validateRecord (r : Record) : Bool :=
  optStrTruthy r.paddockId &&
  decide (r.name ≠ "") && decide (r.owner ≠ "") && decide (r.projectName ≠ "") &&
  !r.areaAcres.ltZero &&
  (match r.areaHectares with | some h => !h.ltZero | none => true) &&
  (match r.calculatedAreaHectares with | some h => !h.ltZero | none => true) &&
  (match r.geometry with
   | none => false
   | some g =>
     decide (g.gtype = some (JVal.vStr "Polygon")) &&
     (match g.coordinates with
      | none => false
      | some cs => polyValidator cs))

/-- Conversion factor acres → hectares used throughout the source. -/
def acreToHectare : ℚ := 404686 / 1000000

/-- The `pre('save')` hook (`Paddock.js` lines 170-191), restricted to the
`areaHectares` derivation (the centroid part is omitted, see `Record`). -/
def preSave (r : Record) : Record :=
  if r.areaAcres.truthy && !optNumTruthy r.areaHectares then
    { r with areaHectares := some (r.areaAcres.mulPos acreToHectare) }
  else r

/-- `paddock.save()`: mongoose validates the constructed document, then the
pre-save hook runs, then the document is persisted; a validation failure
throws (caught by the route's per-feature `try`). -/
def save (r : Record) : Except String Record :=
  if validateRecord r then .ok (preSave r) else .error "Paddock validation failed"

/-- One entry of the batch `errors` list: a per-feature validation rejection
(with its field messages) or a caught exception (message only). -/
inductive ErrEntry where
  | validation (featureIndex : ℕ) (errors : List String)
  | exception (featureIndex : ℕ) (error : String)
deriving DecidableEq, Repr

/-- The paddock construction of the per-feature loop (`upload.js` lines
174-186): build the document, synthesize a `paddockId` when falsy, copy
`areaHectares` (still unset at this point — the pre-save hook has not run)
into `calculatedAreaHectares` when the feature's geometry has coordinates. -/
def buildPaddock (batch : String) (now i : ℕ) (f : Feature) : Record :=
  let p := createFromGeoJSONFeature f batch
  let p2 := if !optStrTruthy p.paddockId then
      { p with paddockId := some ("paddock_" ++ toString i ++ "_" ++ toString now) }
    else p
  if (match f.geometry with
      | some g => g.coordinates.isSome
      | none => false) then
    { p2 with calculatedAreaHectares := p2.areaHectares }
  else p2

/-- The body of the per-feature loop in `router.post('/geojson')`
(`upload.js` lines 158-201): validate, build the paddock, save; a thrown
save error is recorded as an exception entry. -/
def stepFeature (batch : String) (now : ℕ) (i : ℕ) (f : Feature) :
    Except ErrEntry Record :=
  let errs := validateFeature f
  if errs ≠ [] then .error (.validation i errs)
  else
    match save (buildPaddock batch now i f) with
    | .ok r => .ok r
    | .error m => .error (.exception i m)

/-- The loop over `normalizedData.features`, carrying the feature index. -/
def processFrom (batch : String) (now : ℕ) : ℕ → List Feature → List (Except ErrEntry Record)
  | _, [] => []
  | i, f :: fs => stepFeature batch now i f :: processFrom batch now (i + 1) fs

def isOkE : Except ErrEntry Record → Bool
  | .ok _ => true
  | .error _ => false

/-- The `results` object plus the list of saved paddocks of one call. -/
structure BatchResult where
  total : ℕ
  successful : ℕ
  failed : ℕ
  errors : List ErrEntry
  records : List Record
deriving DecidableEq, Repr

/-- Accounting of one ingestion call over the normalized feature list:
every feature increments exactly one of `successful`/`failed`, errors and
saved records are collected in input order. -/
def processFeatures (batch : String) (now : ℕ) (fs : List Feature) : BatchResult :=
  let os := processFrom batch now 0 fs
  { total := fs.length
  , successful := (os.filter (fun o => isOkE o)).length
  , failed := (os.filter (fun o => !isOkE o)).length
  , errors := os.filterMap (fun o => match o with | .error e => some e | .ok _ => none)
  , records := os.filterMap (fun o => match o with | .ok r => some r | .error _ => none) }

/-- The `/geojson` ingestion entry point: structural validation first (a
failure aborts the whole call before any feature is processed), then the
per-feature loop.  `now` stands for `Date.now()` and `batch` for the
caller-supplied upload batch id. -/
def ingest (raw : RawInput) (batch : String) (now : ℕ) : Except String BatchResult :=
  match validateGeoJSON raw with
  | .error e => .error e
  | .ok fs => .ok (processFeatures batch now fs)

/-- Records produced by an ingestion call (none when it failed structurally). -/
def recordsOf : Except String BatchResult → List Record
  | .error _ => []
  | .ok b => b.records

/-- The batch result of a successful call (a zeroed result otherwise; used
only to state concrete evaluations). -/
def batchOf : Except String BatchResult → BatchResult
  | .error _ => ⟨0, 0, 0, [], []⟩
  | .ok b => b

end GeoJson

namespace GeoJson

/-- A project document as `Project.assignColors` sees it
(`src/server/models/Project.js`): its color and creation time (other
fields do not influence color assignment). -/
structure Project where
  pname : String
  color : String
  createdAt : ℕ
deriving DecidableEq, Repr

/-- The fixed 12-entry palette of `Project.assignColors` (also used by the
client `generateProjectColors`). -/
def palette : List String :=
  ["#3B82F6", "#EF4444", "#10B981", "#F59E0B", "#8B5CF6",
   "#EC4899", "#06B6D4", "#84CC16", "#F97316", "#6366F1",
   "#14B8A6", "#F43F5E"]

/-- The schema default color of a project. -/
def defaultColor : String := "#3B82F6"

/-- The `for` loop of `assignColors` (`Project.js` lines 177-183) starting
at index `i`: a project whose color is falsy or still the default gets
`colors[i % colors.length]`; others are untouched. -/
def assignFrom (i : ℕ) : List Project → List Project
  | [] => []
  | p :: ps =>
    (if p.color = "" ∨ p.color = defaultColor then
      { p with color := palette.getD (i % palette.length) "" }
    else p) :: assignFrom (i + 1) ps

/-- Ascending creation order, the sort key of `find({}).sort({createdAt : 1})`. -/
def byCreated (p q : Project) : Prop := p.createdAt ≤ q.createdAt

instance : DecidableRel byCreated := fun p q => Nat.decLe p.createdAt q.createdAt

instance : IsTotal Project byCreated := ⟨fun p q => Nat.le_total p.createdAt q.createdAt⟩

instance : IsTrans Project byCreated := ⟨fun _ _ _ h h2 => Nat.le_trans h h2⟩

/-- `Project.assignColors` (`Project.js` lines 168-184): walk the stored
projects in ascending creation order and recolor the default-colored ones
from the palette.  The database sort is modelled by `List.insertionSort`
(any stable comparison sort; ties in `createdAt` are broken arbitrarily by
the database as well). -/
def assignColors (store : List Project) : List Project :=
  assignFrom 0 (List.insertionSort byCreated store)

/-- A lat/lng bounding box (`Project.js` bounds computation). -/
structure Bounds where
  north : ℚ
  south : ℚ
  east : ℚ
  west : ℚ
deriving DecidableEq, Repr

/-- The seed box of the bounds fold. -/
def seedBounds : Bounds := ⟨-90, 90, -180, 180⟩

/-- One step of the bounds fold (`Project.js` lines 131-139): a position
with at least two components widens the box by its longitude/latitude;
shorter positions are skipped. -/
def updatePos (b : Bounds) (pos : List ℚ) : Bounds :=
  match pos with
  | lng :: lat :: _ =>
    { north := max b.north lat, south := min b.south lat
    , east := max b.east lng, west := min b.west lng }
  | _ => b

/-- The bounds computation of `updateProjectStats` (`Project.js` lines
127-141) as a standalone function of the pushed coordinate sets: fold over
the first ring of each geometry, seeded at the opposite extremes. -/
def computeBounds (gs : List (List (List (List ℚ)))) : Bounds :=
  gs.foldl (fun b coords =>
    match coords with
    | [] => b
    | r0 :: _ => r0.foldl updatePos b) seedBounds

/-- All positions of all first rings, in fold order. -/
def ring0Verts (gs : List (List (List (List ℚ)))) : List (List ℚ) :=
  (gs.map (fun coords => coords.headD [])).flatten

/-- The box `b` contains a position (vacuously for positions shorter than
two components, which the fold skips). -/
def containsPos (b : Bounds) (pos : List ℚ) : Prop :=
  ∀ lng lat rest, pos = lng :: lat :: rest →
    b.south ≤ lat ∧ lat ≤ b.north ∧ b.west ≤ lng ∧ lng ≤ b.east

instance (b : Bounds) (pos : List ℚ) : Decidable (containsPos b pos) := by
  unfold containsPos
  cases pos with
  | nil => exact .isTrue (by intro _ _ _ h; cases h)
  | cons x t =>
    cases t with
    | nil => exact .isTrue (by intro _ _ _ h; cases h)
    | cons y r =>
      refine decidable_of_iff
        (b.south ≤ y ∧ y ≤ b.north ∧ b.west ≤ x ∧ x ≤ b.east) ?_
      constructor
      · intro h lng lat rest he
        cases he
        exact h
      · intro h
        exact h x y r rfl

/-- The box contains every first-ring position of the geometry set. -/
def containsAllVerts (b : Bounds) (gs : List (List (List (List ℚ)))) : Prop :=
  ∀ v ∈ ring0Verts gs, containsPos b v

instance (b : Bounds) (gs : List (List (List (List ℚ)))) :
    Decidable (containsAllVerts b gs) :=
  List.decidableBAll _ _

/-- `b` is the smallest axis-aligned box containing every first-ring
position of the geometry set. -/
def isSmallestBox (b : Bounds) (gs : List (List (List (List ℚ)))) : Prop :=
  containsAllVerts b gs ∧
  ∀ c : Bounds, containsAllVerts c gs →
    b.north ≤ c.north ∧ c.south ≤ b.south ∧ b.east ≤ c.east ∧ c.west ≤ b.west

/-- A position is within the valid longitude/latitude ranges (vacuous for
positions shorter than two components). -/
def posInRange (pos : List ℚ) : Prop :=
  ∀ lng lat rest, pos = lng :: lat :: rest →
    -180 ≤ lng ∧ lng ≤ 180 ∧ -90 ≤ lat ∧ lat ≤ 90

end GeoJson

namespace GeoJson

/-- Client-side feature properties (`src/client/src/types`), restricted to
what `getProjectStatistics` reads.  `area_acres` is typed `number` and
modelled as an exact rational. -/
structure CProps where
  owner : String
  area_acres : ℚ
deriving DecidableEq, Repr

/-- Client-side geometry: `coordinates = none` models an absent or
non-array value. -/
structure CGeom where
  coordinates : Option (List (List (List ℚ)))
deriving DecidableEq, Repr

/-- A client-side feature (`geometry = none` models null geometry). -/
structure CFeature where
  properties : CProps
  geometry : Option CGeom
deriving DecidableEq, Repr

/-- The external `turf.area (turf.polygon coords)` computation, supplied as
a parameter: `none` models the library throwing on an invalid polygon, and
`some a` an area of `a` square meters.  (A `NaN` result needs no separate
case: the source's `area > 0 && !isNaN(area)` admits exactly the positive
numbers, which `0 < a` captures.) -/
abbrev TurfArea := List (List (List ℚ)) → Option ℚ

/-- `isValidGeometry` (`src/client/src/utils/index.ts` lines 314-336). -/
def isValidGeometry (turfArea : TurfArea) (f : CFeature) : Bool :=
  match f.geometry with
  | none => false
  | some g =>
    match g.coordinates with
    | none => false
    | some cs =>
      if cs.length = 0 then false
      else
        match turfArea cs with
        | none => false
        | some a => decide (0 < a)

/-- `calculateFeatureAreaHectares` (`index.ts` lines 338-353): square
meters over 10,000; 0 for invalid geometry or a thrown computation. -/
def calculateFeatureAreaHectares (turfArea : TurfArea) (f : CFeature) : ℚ :=
  if isValidGeometry turfArea f then
    match f.geometry with
    | some g =>
      match g.coordinates with
      | some cs => (turfArea cs).getD 0 / 10000
      | none => 0
    | none => 0
  else 0

/-- `[...new Set(xs)]`: deduplication keeping first occurrences. -/
def jsSetDedup : List String → List String
  | [] => []
  | x :: xs => x :: jsSetDedup (xs.filter (fun y => y ≠ x))
termination_by l => l.length
decreasing_by
  simp only [List.length_cons]
  exact Nat.lt_succ_of_le (List.length_filter_le _ _)

/-- One element of the array `getProjectStatistics` returns. -/
structure CStats where
  projectName : String
  featureCount : ℕ
  validPaddockCount : ℕ
  totalAreaAcres : ℚ
  totalAreaHectares : ℚ
  calculatedAreaHectares : ℚ
  owners : List String
  features : List CFeature
  validFeatures : List CFeature
deriving DecidableEq, Repr

/-- The per-project body of `getProjectStatistics` (`index.ts` lines
378-407). -/
def statsFor (turfArea : TurfArea) (pn : String) (fs : List CFeature) : CStats :=
  let validFeatures := fs.filter (fun f => isValidGeometry turfArea f)
  let totalAreaAcres := fs.foldl (fun s f => s + f.properties.area_acres) 0
  { projectName := pn
  , featureCount := fs.length
  , validPaddockCount := validFeatures.length
  , totalAreaAcres := totalAreaAcres
  , totalAreaHectares := totalAreaAcres * acreToHectare
  , calculatedAreaHectares :=
      validFeatures.foldl (fun s f => s + calculateFeatureAreaHectares turfArea f) 0
  , owners := jsSetDedup (fs.map (fun f => f.properties.owner))
  , features := fs
  , validFeatures := validFeatures }

/-- Descending order of `calculatedAreaHectares`: the order induced by the
comparator `(a, b) => b.calculatedAreaHectares - a.calculatedAreaHectares`. -/
def byCalcDesc (a b : CStats) : Prop :=
  b.calculatedAreaHectares ≤ a.calculatedAreaHectares

instance : DecidableRel byCalcDesc := fun a b =>
  inferInstanceAs (Decidable (b.calculatedAreaHectares ≤ a.calculatedAreaHectares))

instance : IsTotal CStats byCalcDesc :=
  ⟨fun a b => le_total b.calculatedAreaHectares a.calculatedAreaHectares⟩

instance : IsTrans CStats byCalcDesc :=
  ⟨fun _ _ _ h h2 => le_trans h2 h⟩

/-- `getProjectStatistics` (`index.ts` lines 375-409): one stats object per
group (the grouped input is modelled as an association list in key
insertion order, matching `Object.keys`), then `.sort` with the descending
comparator, modelled by `List.insertionSort` over `byCalcDesc`. -/
def getProjectStatistics (turfArea : TurfArea)
    (groupedFeatures : List (String × List CFeature)) : List CStats :=
  List.insertionSort byCalcDesc
    (groupedFeatures.map (fun g => statsFor turfArea g.1 g.2))

end GeoJson

namespace GeoJson

/- Batteries marks the `Rat` arithmetic operations `@[irreducible]`; the
concrete evaluations below go through `decide`, which needs them to
unfold, so their default reducibility is restored for the rest of this
development. -/
attribute [local semireducible] Rat.mul Rat.add Rat.sub Rat.inv Rat.ofScientific

/-! ### Concrete fixtures used by counterexamples and witnesses -/

/-- A closed 4-point triangle-ish outer ring. -/
def ringClosed : List (List ℚ) := [[0, 0], [2, 0], [2, 2], [0, 0]]

def geomClosed : Geometry := ⟨some (.vStr "Polygon"), some [ringClosed]⟩

/-- A fully valid property bag with a given `area_acres` value. -/
def okProps (a : JVal) : Props :=
  ⟨some (.vNum 1), none, some (.vStr "A"), none,
   some (.vStr "Bob"), some (.vStr "P1"), none, some a⟩

def okFeature (a : JVal) : Feature :=
  ⟨some (.vStr "Feature"), some (okProps a), some geomClosed⟩

/-- A raw document whose `type` is `"FeatureCollection"`. -/
def fcSelf : Feature := ⟨some (.vStr "FeatureCollection"), none, none⟩

/-- Properties whose keys are present but falsy: `id` is the number 0,
`name` and `owner` are empty strings. -/
def falsyProps : Props :=
  ⟨some (.vNum 0), none, some (.vStr ""), none,
   some (.vStr ""), some (.vStr "P1"), none, some (.vStr "10")⟩

def falsyFeature : Feature := ⟨some (.vStr "Feature"), some falsyProps, some geomClosed⟩

/-! ### C9 -/

/-- C9: `validateFeature` tests the required properties by JS truthiness,
not presence: `id = 0` (without `paddockId`), `name = ""` (without
`paddock_name`) and `owner = ""` are each reported as missing although the
key is present. -/
theorem C9_truthiness_not_presence (f : Feature) (props : Props)
    (hp : f.properties = some props) :
    (props.id = some (JVal.vNum 0) → props.paddockId = none →
      "Feature must have id or paddockId property" ∈ validateFeature f) ∧
    (props.name = some (JVal.vStr "") → props.paddock_name = none →
      "Feature must have name or paddock_name property" ∈ validateFeature f) ∧
    (props.owner = some (JVal.vStr "") →
      "Feature must have owner property" ∈ validateFeature f) := by
  unfold validateFeature
  rw [hp]
  refine ⟨fun h1 h2 => ?_, fun h1 h2 => ?_, fun h1 => ?_⟩
  · simp [h1, h2, jsTruthy, List.mem_append]
  · simp [h1, h2, jsTruthy, List.mem_append]
  · simp [h1, jsTruthy, List.mem_append]

/-- Witness for C9 at a concrete feature whose `id` is the number 0, whose
`name` and `owner` are empty strings. -/
theorem C9_truthiness_not_presence_witness :
    "Feature must have id or paddockId property" ∈ validateFeature falsyFeature ∧
    "Feature must have name or paddock_name property" ∈ validateFeature falsyFeature ∧
    "Feature must have owner property" ∈ validateFeature falsyFeature := by
  have h := C9_truthiness_not_presence falsyFeature falsyProps rfl
  exact ⟨h.1 rfl rfl, h.2.1 rfl rfl, h.2.2 rfl⟩

/-! ### C7 -/

/-- Counterexample for C7: a feature whose `area_acres` is the number 0 —
which parses to the finite number 0 — is nonetheless reported with the
area error (and it is the only error), because the check first tests JS
truthiness (`!props.area_acres`) and 0 is falsy.  This refutes "a feature
whose `area_acres` parses to a finite number produces no area error". -/
theorem C7_counterexample :
    parseFloat (okProps (.vNum 0)).area_acres = JNum.fin 0 ∧
    validateFeature (okFeature (.vNum 0)) = [msgAreaAcres] := by
  constructor
  · rfl
  · decide

/-- C7 (amended): `validateFeature` reports the area error message exactly
once when `area_acres` is falsy (absent, null, false, the number 0, the
empty string, or `NaN`) or `parseFloat` of it yields `NaN`, and zero times
otherwise; in particular a truthy `area_acres` parsing to any number —
including the non-finite `±Infinity` — produces no area error, while the
finite number 0 does produce it. -/
theorem C7_area_error_exact (f : Feature) (props : Props)
    (hp : f.properties = some props) :
    (validateFeature f).count msgAreaAcres =
      (if ¬ jsTruthy props.area_acres ∨ (parseFloat props.area_acres).isNaN then 1 else 0) := by
  have hnm : ∀ {c : Prop} {inst : Decidable c} {ms1 ms2 : List String},
      msgAreaAcres ∉ ms1 → msgAreaAcres ∉ ms2 → msgAreaAcres ∉ (if c then ms1 else ms2) := by
    intro c inst ms1 ms2 h1 h2
    split
    · exact h1
    · exact h2
  have hA : (if ¬ jsTruthy props.area_acres ∨ (parseFloat props.area_acres).isNaN then
        [msgAreaAcres] else ([] : List String)).count msgAreaAcres =
      (if ¬ jsTruthy props.area_acres ∨ (parseFloat props.area_acres).isNaN then 1 else 0) := by
    split
    · decide
    · rfl
  have hb : (if ¬ jsTruthy f.ftype ∨ ¬ f.ftype = some (JVal.vStr "Feature") then
      ["Feature must have type \"Feature\""] else ([] : List String)).count msgAreaAcres = 0 :=
    List.count_eq_zero.2 (hnm (by decide) (by decide))
  have hc : (if ¬ jsTruthy props.id ∧ ¬ jsTruthy props.paddockId then
      ["Feature must have id or paddockId property"] else ([] : List String)).count
        msgAreaAcres = 0 :=
    List.count_eq_zero.2 (hnm (by decide) (by decide))
  have hd : (if ¬ jsTruthy props.name ∧ ¬ jsTruthy props.paddock_name then
      ["Feature must have name or paddock_name property"] else ([] : List String)).count
        msgAreaAcres = 0 :=
    List.count_eq_zero.2 (hnm (by decide) (by decide))
  have he : (if ¬ jsTruthy props.owner then
      ["Feature must have owner property"] else ([] : List String)).count msgAreaAcres = 0 :=
    List.count_eq_zero.2 (hnm (by decide) (by decide))
  have hpj : (if ¬ jsTruthy props.Project__Name ∧ ¬ jsTruthy props.project_name then
      ["Feature must have Project__Name or project_name property"] else
        ([] : List String)).count msgAreaAcres = 0 :=
    List.count_eq_zero.2 (hnm (by decide) (by decide))
  unfold validateFeature
  rw [hp]
  rcases f.geometry with _ | g
  · simp only [List.count_append, hA, hb, hc, hd, he, hpj,
      show (["Feature must have geometry"].count msgAreaAcres) = 0 from by decide]
    omega
  · have hg : (if ¬ g.gtype = some (JVal.vStr "Polygon") then
          ["Feature geometry must be a Polygon"]
        else if g.coordinates = none then
          ["Feature geometry must have coordinates array"]
        else ([] : List String)).count msgAreaAcres = 0 :=
      List.count_eq_zero.2 (hnm (by decide) (hnm (by decide) (by decide)))
    simp only [List.count_append, hA, hb, hc, hd, he, hpj, hg]
    omega

/-- Witness for C7's amended theorem: at a fully valid feature with
`area_acres = "10"` the area-error count is 0; at one with the finite but
falsy `area_acres = 0` it is 1. -/
theorem C7_area_error_exact_witness :
    (validateFeature (okFeature (.vStr "10"))).count msgAreaAcres = 0 ∧
    (validateFeature (okFeature (.vNum 0))).count msgAreaAcres = 1 := by
  constructor
  · have h := C7_area_error_exact (okFeature (.vStr "10")) (okProps (.vStr "10")) rfl
    rw [h]
    decide
  · have h := C7_area_error_exact (okFeature (.vNum 0)) (okProps (.vNum 0)) rfl
    rw [h]
    decide

/-! ### C1 -/

/-- Counterexample for C1: ingesting a FeatureCollection of 2 features
where the second has `area_acres = "abc"` (unparseable) but all other
required fields present yields `successful = 1`, `failed = 1`, a
per-feature validation error for the second feature with the area message,
and a single record (for the first feature only).  This refutes the claim
that such a feature is accepted with `areaAcres = 0`. -/
theorem C1_counterexample :
    (batchOf (ingest (.obj fcSelf (.arr [okFeature (.vStr "10"), okFeature (.vStr "abc")]))
        "batch" 7)).successful = 1 ∧
    (batchOf (ingest (.obj fcSelf (.arr [okFeature (.vStr "10"), okFeature (.vStr "abc")]))
        "batch" 7)).failed = 1 ∧
    (batchOf (ingest (.obj fcSelf (.arr [okFeature (.vStr "10"), okFeature (.vStr "abc")]))
        "batch" 7)).errors = [.validation 1 [msgAreaAcres]] ∧
    (recordsOf (ingest (.obj fcSelf (.arr [okFeature (.vStr "10"), okFeature (.vStr "abc")]))
        "batch" 7)).length = 1 := by
  refine ⟨?_, ?_, ?_, ?_⟩ <;> decide

/-- C1 (amended): a feature whose `area_acres` is present but unparseable
(`parseFloat` yields `NaN`) is reported with the per-feature area
validation error and is never accepted: the loop body produces an error
entry, not a record. -/
theorem C1_unparseable_area_rejected (f : Feature) (props : Props)
    (hp : f.properties = some props)
    (hn : (parseFloat props.area_acres).isNaN = true) :
    msgAreaAcres ∈ validateFeature f ∧
    ∀ batch now i, isOkE (stepFeature batch now i f) = false := by
  have hmem : msgAreaAcres ∈ validateFeature f := by
    unfold validateFeature
    rw [hp]
    simp [hn, List.mem_append]
  refine ⟨hmem, fun batch now i => ?_⟩
  have hne : validateFeature f ≠ [] := List.ne_nil_of_mem hmem
  unfold stepFeature
  simp [hne, isOkE]

/-- Witness for C1's amended theorem at the concrete `area_acres = "abc"`
feature of the counterexample batch. -/
theorem C1_unparseable_area_rejected_witness :
    msgAreaAcres ∈ validateFeature (okFeature (.vStr "abc")) ∧
    isOkE (stepFeature "batch" 7 1 (okFeature (.vStr "abc"))) = false := by
  have h := C1_unparseable_area_rejected (okFeature (.vStr "abc")) (okProps (.vStr "abc"))
    rfl (by decide)
  exact ⟨h.1, h.2 "batch" 7 1⟩

/-! ### C3 -/

/-- A trivially-valid feature used to build a 10,001-element collection. -/
def trivialFeature : Feature := okFeature (.vStr "10")

/-- C3: for every raw input whose `type` is `"FeatureCollection"`,
structural validation fails when `features` is not an array, when it is
empty, and when it has more than 10,000 elements; in the over-cap case the
whole ingestion call aborts with the structural error before any feature
is processed and zero records are produced. -/
theorem C3_structural_failures (self : Feature)
    (h : self.ftype = some (JVal.vStr "FeatureCollection")) :
    validateGeoJSON (.obj self .notArray) =
      .error "Invalid GeoJSON: features must be an array" ∧
    validateGeoJSON (.obj self (.arr [])) =
      .error "Invalid GeoJSON: features array cannot be empty" ∧
    ∀ fs : List Feature, 10000 < fs.length → ∀ batch now,
      ingest (.obj self (.arr fs)) batch now =
        .error "Invalid GeoJSON: too many features (maximum 10,000 allowed)" ∧
      recordsOf (ingest (.obj self (.arr fs)) batch now) = [] := by
  have hne : ¬ self.ftype = some (JVal.vStr "Feature") := by
    rw [h]
    decide
  refine ⟨?_, ?_, ?_⟩
  · simp [validateGeoJSON, h, hne]
  · simp [validateGeoJSON, h, hne]
  · intro fs hlen batch now
    have h0 : ¬ fs.length = 0 := by omega
    have he : ingest (.obj self (.arr fs)) batch now =
        .error "Invalid GeoJSON: too many features (maximum 10,000 allowed)" := by
      simp [ingest, validateGeoJSON, h, hne, h0, hlen]
    refine ⟨he, ?_⟩
    rw [he]
    rfl

/-- Witness for C3 at a concrete header and a 10,001-feature collection. -/
theorem C3_structural_failures_witness :
    validateGeoJSON (.obj fcSelf .notArray) =
      .error "Invalid GeoJSON: features must be an array" ∧
    validateGeoJSON (.obj fcSelf (.arr [])) =
      .error "Invalid GeoJSON: features array cannot be empty" ∧
    ingest (.obj fcSelf (.arr (List.replicate 10001 trivialFeature))) "batch" 7 =
      .error "Invalid GeoJSON: too many features (maximum 10,000 allowed)" ∧
    recordsOf (ingest (.obj fcSelf (.arr (List.replicate 10001 trivialFeature)))
      "batch" 7) = [] := by
  have h := C3_structural_failures fcSelf rfl
  have hlen : 10000 < (List.replicate 10001 trivialFeature).length := by
    rw [List.length_replicate]
    omega
  exact ⟨h.1, h.2.1, (h.2.2 _ hlen "batch" 7).1, (h.2.2 _ hlen "batch" 7).2⟩

/-! ### C4 -/

theorem length_filter_partition {α : Type} (p : α → Bool) :
    ∀ l : List α, (l.filter p).length + (l.filter (fun x => !p x)).length = l.length := by
  intro l
  induction l with
  | nil => rfl
  | cons x l ih =>
    cases hp : p x <;> simp [List.filter_cons, hp] <;> omega

theorem processFrom_length (batch : String) (now : ℕ) :
    ∀ (i : ℕ) (fs : List Feature), (processFrom batch now i fs).length = fs.length := by
  intro i fs
  induction fs generalizing i with
  | nil => rfl
  | cons f fs ih => simp [processFrom, ih]

/-- C4: for every ingestion call that passes structural validation, the
returned batch result satisfies `successful + failed = total`, and `total`
is the length of the (possibly Feature-wrapped) normalized feature list;
each feature contributes to exactly one of the two counters because the
counters count the ok/error outcomes of the per-feature loop. -/
theorem C4_batch_accounting (raw : RawInput) (batch : String) (now : ℕ)
    (b : BatchResult) (hb : ingest raw batch now = .ok b) :
    b.successful + b.failed = b.total ∧
    ∃ fs, validateGeoJSON raw = .ok fs ∧ b.total = fs.length := by
  unfold ingest at hb
  rcases hv : validateGeoJSON raw with e | fs
  · rw [hv] at hb
    cases hb
  · rw [hv] at hb
    cases hb
    refine ⟨?_, fs, rfl, rfl⟩
    show ((processFrom batch now 0 fs).filter (fun o => isOkE o)).length +
      ((processFrom batch now 0 fs).filter (fun o => !isOkE o)).length = fs.length
    rw [length_filter_partition (fun o => isOkE o) (processFrom batch now 0 fs)]
    exact processFrom_length batch now 0 fs

/-- Witness for C4 at a concrete two-feature batch (one accepted, one
rejected). -/
theorem C4_batch_accounting_witness :
    (batchOf (ingest (.obj fcSelf (.arr [okFeature (.vStr "10"), okFeature (.vStr "abc")]))
      "batch" 7)).successful +
    (batchOf (ingest (.obj fcSelf (.arr [okFeature (.vStr "10"), okFeature (.vStr "abc")]))
      "batch" 7)).failed =
    (batchOf (ingest (.obj fcSelf (.arr [okFeature (.vStr "10"), okFeature (.vStr "abc")]))
      "batch" 7)).total := by
  have hb : ingest (.obj fcSelf (.arr [okFeature (.vStr "10"), okFeature (.vStr "abc")]))
      "batch" 7 =
      .ok (batchOf (ingest (.obj fcSelf (.arr [okFeature (.vStr "10"),
        okFeature (.vStr "abc")])) "batch" 7)) := by
    rfl
  exact (C4_batch_accounting _ "batch" 7 _ hb).1

/-! ### Produced records: supporting lemmas -/

theorem createFrom_geometry (f : Feature) (batch : String) :
    (createFromGeoJSONFeature f batch).geometry = f.geometry := rfl

theorem createFrom_areaHectares (f : Feature) (batch : String) :
    (createFromGeoJSONFeature f batch).areaHectares = none := rfl

theorem createFrom_calculated (f : Feature) (batch : String) :
    (createFromGeoJSONFeature f batch).calculatedAreaHectares = none := rfl

theorem buildPaddock_geometry (batch : String) (now i : ℕ) (f : Feature) :
    (buildPaddock batch now i f).geometry = f.geometry := by
  unfold buildPaddock
  dsimp only
  split <;> split <;> rfl

theorem buildPaddock_calculated (batch : String) (now i : ℕ) (f : Feature) :
    (buildPaddock batch now i f).calculatedAreaHectares = none := by
  unfold buildPaddock
  dsimp only
  split <;> split <;> rfl

theorem preSave_geometry (r : Record) : (preSave r).geometry = r.geometry := by
  unfold preSave
  split <;> rfl

theorem preSave_calculated (r : Record) :
    (preSave r).calculatedAreaHectares = r.calculatedAreaHectares := by
  unfold preSave
  split <;> rfl

theorem stepFeature_ok (batch : String) (now i : ℕ) (f : Feature) (r : Record)
    (h : stepFeature batch now i f = .ok r) :
    validateRecord (buildPaddock batch now i f) = true ∧
    r = preSave (buildPaddock batch now i f) := by
  unfold stepFeature at h
  by_cases hne : validateFeature f ≠ []
  · rw [if_pos hne] at h
    cases h
  · rw [if_neg hne] at h
    unfold save at h
    by_cases hv : validateRecord (buildPaddock batch now i f) = true
    · rw [if_pos hv] at h
      cases h
      exact ⟨hv, rfl⟩
    · rw [if_neg hv] at h
      cases h

theorem mem_processFrom (batch : String) (now : ℕ) :
    ∀ (i : ℕ) (fs : List Feature) (o : Except ErrEntry Record),
      o ∈ processFrom batch now i fs → ∃ j f, f ∈ fs ∧ o = stepFeature batch now j f := by
  intro i fs
  induction fs generalizing i with
  | nil =>
    intro o ho
    cases ho
  | cons f fs ih =>
    intro o ho
    rw [processFrom] at ho
    rcases List.mem_cons.1 ho with h | h
    · exact ⟨i, f, List.mem_cons_self f fs, h⟩
    · obtain ⟨j, f2, hf2, he⟩ := ih (i + 1) o h
      exact ⟨j, f2, List.mem_cons_of_mem f hf2, he⟩

theorem mem_records (batch : String) (now : ℕ) (fs : List Feature) (r : Record)
    (hr : r ∈ (processFeatures batch now fs).records) :
    ∃ j f, f ∈ fs ∧ stepFeature batch now j f = .ok r := by
  unfold processFeatures at hr
  rw [List.mem_filterMap] at hr
  obtain ⟨o, ho, hmap⟩ := hr
  obtain ⟨j, f, hf, he⟩ := mem_processFrom batch now 0 fs o ho
  refine ⟨j, f, hf, ?_⟩
  rw [← he]
  cases o with
  | ok r2 =>
    simp only [Option.some.injEq] at hmap
    rw [hmap]
  | error e => cases hmap

theorem validateRecord_geometry (r : Record) (h : validateRecord r = true) :
    ∃ g cs, r.geometry = some g ∧ g.coordinates = some cs ∧ polyValidator cs = true := by
  unfold validateRecord at h
  rcases hg : r.geometry with _ | g
  · rw [hg] at h
    simp at h
  · rw [hg] at h
    simp only [Bool.and_eq_true] at h
    have hmatch := h.2
    rcases hc : g.coordinates with _ | cs
    · rw [hc] at hmatch
      simp at hmatch
    · rw [hc] at hmatch
      simp only [Bool.and_eq_true] at hmatch
      exact ⟨g, cs, rfl, hc, hmatch.2⟩

/-- Every record reachable from a successful ingestion comes from a
successful `stepFeature`, hence from a validated, pre-save-hooked paddock. -/
theorem ingest_record_origin (raw : RawInput) (batch : String) (now : ℕ)
    (b : BatchResult) (hb : ingest raw batch now = .ok b)
    (r : Record) (hr : r ∈ b.records) :
    ∃ j f, stepFeature batch now j f = .ok r := by
  unfold ingest at hb
  rcases hv : validateGeoJSON raw with e | fs
  · rw [hv] at hb
    cases hb
  · rw [hv] at hb
    cases hb
    obtain ⟨j, f, _, he⟩ := mem_records batch now fs r hr
    exact ⟨j, f, he⟩

/-! ### C5 -/

/-- The feature of the C5 counterexample: valid in every respect, but its
ring's first and last positions are the 3-component `[0,0,5]` and
`[0,0,7]`, equal in components 0 and 1 only. -/
def feature3d : Feature :=
  ⟨some (.vStr "Feature"), some (okProps (.vStr "10")),
   some ⟨some (.vStr "Polygon"), some [[[0, 0, 5], [2, 0], [2, 2], [0, 0, 7]]]⟩⟩

/-- Counterexample for C5: the schema validator compares only the first
two components of the first and last position, so ingesting `feature3d`
produces a record whose first ring is not closed coordinate-wise: the
first and last positions of `geometry.coordinates[0]` differ. -/
theorem C5_counterexample :
    (recordsOf (ingest (.obj feature3d .notArray) "batch" 7)).map
      (fun r => (r.geometry.bind (fun g => g.coordinates)).bind (fun cs => cs.head?)) =
      [some [[0, 0, 5], [2, 0], [2, 2], [0, 0, 7]]] ∧
    ([[0, 0, 5], [2, 0], [2, 2], [0, 0, 7]] : List (List ℚ)).head? ≠
      ([[0, 0, 5], [2, 0], [2, 2], [0, 0, 7]] : List (List ℚ)).getLast? := by
  constructor
  · decide
  · decide

/-- C5 (amended): every record produced by ingestion has a polygon
geometry whose coordinates are a non-empty list of rings, whose first ring
has at least 4 positions and is closed in its first two (longitude and
latitude) components — the schema validator compares only components 0 and
1 of the first and last position, so closure coordinate-wise (full
position equality) is not guaranteed for longer positions. -/
theorem C5_ring_closed_lng_lat (raw : RawInput) (batch : String) (now : ℕ)
    (b : BatchResult) (hb : ingest raw batch now = .ok b)
    (r : Record) (hr : r ∈ b.records) :
    ∃ g r0 rest, r.geometry = some g ∧ g.coordinates = some (r0 :: rest) ∧
      4 ≤ r0.length ∧
      ringAt r0 0 0 = ringAt r0 (r0.length - 1) 0 ∧
      ringAt r0 0 1 = ringAt r0 (r0.length - 1) 1 := by
  obtain ⟨j, f, he⟩ := ingest_record_origin raw batch now b hb r hr
  obtain ⟨hv, hrr⟩ := stepFeature_ok batch now j f r he
  obtain ⟨g, cs, hg, hc, hpoly⟩ := validateRecord_geometry _ hv
  rcases cs with _ | ⟨r0, rest⟩
  · rw [polyValidator] at hpoly
    cases hpoly
  · unfold polyValidator at hpoly
    simp only [Bool.and_eq_true, decide_eq_true_eq] at hpoly
    refine ⟨g, r0, rest, ?_, hc, hpoly.1.1, hpoly.1.2, hpoly.2⟩
    rw [hrr, preSave_geometry]
    exact hg

/-- Witness for C5's amended theorem at the concrete one-feature batch of
the counterexample (the 3-component ring is closed in components 0 and 1). -/
theorem C5_ring_closed_lng_lat_witness :
    ∃ g r0 rest,
      ((batchOf (ingest (.obj feature3d .notArray) "batch" 7)).records.headD
        (createFromGeoJSONFeature trivialFeature "batch")).geometry = some g ∧
      g.coordinates = some (r0 :: rest) ∧ 4 ≤ r0.length ∧
      ringAt r0 0 0 = ringAt r0 (r0.length - 1) 0 ∧
      ringAt r0 0 1 = ringAt r0 (r0.length - 1) 1 := by
  have hb : ingest (.obj feature3d .notArray) "batch" 7 =
      .ok (batchOf (ingest (.obj feature3d .notArray) "batch" 7)) := rfl
  refine C5_ring_closed_lng_lat _ "batch" 7 _ hb _ ?_
  decide

/-! ### C2 -/

/-- Counterexample for C2: ingesting a fully valid feature with a closed,
non-degenerate triangle ring and `area_acres = "10"` yields a record whose
`calculatedAreaHectares` has no value at all — the route copies the still
unset `areaHectares` into it before the pre-save hook computes areas —
while the declared-area field `areaHectares` is set to `10 × 0.404686`.
A value derived from the geometry's spherical area (square meters over
10,000) would be a present, positive number, so the claim fails. -/
theorem C2_counterexample :
    (recordsOf (ingest (.obj (okFeature (.vStr "10")) .notArray) "batch" 7)).map
      (fun r => r.calculatedAreaHectares) = [none] ∧
    (recordsOf (ingest (.obj (okFeature (.vStr "10")) .notArray) "batch" 7)).map
      (fun r => r.areaHectares) = [some (.fin (10 * acreToHectare))] := by
  constructor
  · decide
  · decide

/-- C2 (amended): for every record produced by the `/geojson` ingestion
route, `calculatedAreaHectares` is unset (`none`): the route assigns it
the value of `areaHectares` before the pre-save hook derives that field,
so it is never a geometry-derived spherical area. -/
theorem C2_calculated_never_geometry_derived (raw : RawInput) (batch : String)
    (now : ℕ) (b : BatchResult) (hb : ingest raw batch now = .ok b)
    (r : Record) (hr : r ∈ b.records) :
    r.calculatedAreaHectares = none := by
  obtain ⟨j, f, he⟩ := ingest_record_origin raw batch now b hb r hr
  obtain ⟨_, hrr⟩ := stepFeature_ok batch now j f r he
  rw [hrr, preSave_calculated, buildPaddock_calculated]

/-- Witness for C2's amended theorem at the concrete one-feature batch of
the counterexample. -/
theorem C2_calculated_never_geometry_derived_witness :
    ((batchOf (ingest (.obj (okFeature (.vStr "10")) .notArray) "batch" 7)).records.headD
      (createFromGeoJSONFeature trivialFeature "batch")).calculatedAreaHectares = none := by
  have hb : ingest (.obj (okFeature (.vStr "10")) .notArray) "batch" 7 =
      .ok (batchOf (ingest (.obj (okFeature (.vStr "10")) .notArray) "batch" 7)) := rfl
  refine C2_calculated_never_geometry_derived _ "batch" 7 _ hb _ ?_
  decide

/-! ### C6 -/

theorem assignFrom_map_createdAt (i : ℕ) (ps : List Project) :
    (assignFrom i ps).map Project.createdAt = ps.map Project.createdAt := by
  induction ps generalizing i with
  | nil => rfl
  | cons p ps ih =>
    simp only [assignFrom, List.map_cons, ih]
    congr 1
    split <;> rfl

theorem assignFrom_mem_createdAt (j : ℕ) (ps : List Project) (q : Project)
    (hq : q ∈ assignFrom j ps) : ∃ q0 ∈ ps, q.createdAt = q0.createdAt := by
  induction ps generalizing j with
  | nil => cases hq
  | cons p ps ih =>
    rw [assignFrom] at hq
    rcases List.mem_cons.1 hq with h | h
    · refine ⟨p, List.mem_cons_self p ps, ?_⟩
      rw [h]
      split <;> rfl
    · obtain ⟨q0, hq0, he⟩ := ih (j + 1) h
      exact ⟨q0, List.mem_cons_of_mem p hq0, he⟩

theorem sorted_assignFrom (i : ℕ) (ps : List Project) :
    List.Sorted byCreated ps → List.Sorted byCreated (assignFrom i ps) := by
  induction ps generalizing i with
  | nil =>
    intro _
    exact List.Pairwise.nil
  | cons p ps ih =>
    intro hs
    rcases List.pairwise_cons.1 hs with ⟨hp, hps⟩
    rw [assignFrom]
    refine List.Pairwise.cons ?_ (ih (i + 1) hps)
    intro q hq
    obtain ⟨q0, hq0, he⟩ := assignFrom_mem_createdAt (i + 1) ps q hq
    have hx : (if p.color = "" ∨ p.color = defaultColor then
        { p with color := palette.getD (i % palette.length) "" } else p).createdAt =
        p.createdAt := by
      split <;> rfl
    show byCreated _ q
    unfold byCreated
    rw [hx, he]
    exact hp q0 hq0

theorem assignFrom_idem (i : ℕ) (ps : List Project) :
    assignFrom i (assignFrom i ps) = assignFrom i ps := by
  induction ps generalizing i with
  | nil => rfl
  | cons p ps ih =>
    rw [assignFrom, assignFrom, ih]
    congr 1
    by_cases hp : p.color = "" ∨ p.color = defaultColor
    · rw [if_pos hp]
      split <;> rfl
    · rw [if_neg hp, if_neg hp]

/-- C6: `assignColors` is idempotent — a second run with no new projects
returns exactly the same colored project list; it walks the stored
projects in ascending creation order (the list it colors is sorted by
`createdAt`), and the project at walk position `k` of a walk starting at
index `i` receives `palette[(i + k) % 12]` exactly when its color is
unset or still the default, and is returned unchanged (its customized
color never overwritten) otherwise. -/
theorem C6_assignColors_idempotent :
    palette.length = 12 ∧
    (∀ store : List Project, assignColors (assignColors store) = assignColors store) ∧
    (∀ store : List Project,
      assignColors store = assignFrom 0 (List.insertionSort byCreated store) ∧
      List.Sorted byCreated (List.insertionSort byCreated store)) ∧
    (∀ (i k : ℕ) (ps : List Project),
      (assignFrom i ps)[k]? = (ps[k]?).map (fun p =>
        if p.color = "" ∨ p.color = defaultColor then
          { p with color := palette.getD ((i + k) % palette.length) "" }
        else p)) := by
  refine ⟨rfl, ?_, ?_, ?_⟩
  · intro store
    unfold assignColors
    rw [List.Sorted.insertionSort_eq
      (sorted_assignFrom 0 _ (List.sorted_insertionSort byCreated store))]
    exact assignFrom_idem 0 _
  · intro store
    exact ⟨rfl, List.sorted_insertionSort byCreated store⟩
  · intro i k ps
    induction ps generalizing i k with
    | nil => rfl
    | cons p ps ih =>
      cases k with
      | zero =>
        rw [assignFrom]
        simp only [List.getElem?_cons_zero, Nat.add_zero]
        rfl
      | succ k =>
        rw [assignFrom]
        simp only [List.getElem?_cons_succ]
        rw [ih (i + 1) k]
        have : i + 1 + k = i + (k + 1) := by omega
        rw [this]

/-! ### C8 -/

instance (pos : List ℚ) : Decidable (posInRange pos) := by
  unfold posInRange
  cases pos with
  | nil => exact .isTrue (by intro _ _ _ h; cases h)
  | cons x t =>
    cases t with
    | nil => exact .isTrue (by intro _ _ _ h; cases h)
    | cons y r =>
      refine decidable_of_iff (-180 ≤ x ∧ x ≤ 180 ∧ -90 ≤ y ∧ y ≤ 90) ?_
      constructor
      · intro h lng lat rest he
        cases he
        exact h
      · intro h
        exact h x y r rfl

theorem foldBounds_mono (l : List (List ℚ)) :
    ∀ b : Bounds, b.north ≤ (l.foldl updatePos b).north ∧
      (l.foldl updatePos b).south ≤ b.south ∧
      b.east ≤ (l.foldl updatePos b).east ∧
      (l.foldl updatePos b).west ≤ b.west := by
  induction l with
  | nil =>
    intro b
    exact ⟨le_refl _, le_refl _, le_refl _, le_refl _⟩
  | cons v l ih =>
    intro b
    have hstep : b.north ≤ (updatePos b v).north ∧ (updatePos b v).south ≤ b.south ∧
        b.east ≤ (updatePos b v).east ∧ (updatePos b v).west ≤ b.west := by
      rcases v with _ | ⟨lng, _ | ⟨lat, rest⟩⟩
      · exact ⟨le_refl _, le_refl _, le_refl _, le_refl _⟩
      · exact ⟨le_refl _, le_refl _, le_refl _, le_refl _⟩
      · exact ⟨le_max_left _ _, min_le_left _ _, le_max_left _ _, min_le_left _ _⟩
    obtain ⟨h1, h2, h3, h4⟩ := ih (updatePos b v)
    rw [List.foldl_cons]
    exact ⟨le_trans hstep.1 h1, le_trans h2 hstep.2.1,
      le_trans hstep.2.2.1 h3, le_trans h4 hstep.2.2.2⟩

theorem foldBounds_contains (l : List (List ℚ)) :
    ∀ (b : Bounds) (v : List ℚ), v ∈ l → containsPos (l.foldl updatePos b) v := by
  induction l with
  | nil =>
    intro b v hv
    cases hv
  | cons w l ih =>
    intro b v hv
    rw [List.foldl_cons]
    rcases List.mem_cons.1 hv with h | h
    · subst h
      have hb : containsPos (updatePos b v) v := by
        intro lng lat rest he
        subst he
        exact ⟨min_le_right _ _, le_max_right _ _, min_le_right _ _, le_max_right _ _⟩
      intro lng lat rest he
      obtain ⟨m1, m2, m3, m4⟩ := foldBounds_mono l (updatePos b v)
      obtain ⟨c1, c2, c3, c4⟩ := hb lng lat rest he
      exact ⟨le_trans m2 c1, le_trans c2 m1, le_trans m4 c3, le_trans c4 m3⟩
    · exact ih (updatePos b w) v h

theorem foldBounds_ub (l : List (List ℚ)) :
    ∀ b c : Bounds, (∀ v ∈ l, containsPos c v) →
      b.north ≤ c.north → c.south ≤ b.south → b.east ≤ c.east → c.west ≤ b.west →
      (l.foldl updatePos b).north ≤ c.north ∧ c.south ≤ (l.foldl updatePos b).south ∧
      (l.foldl updatePos b).east ≤ c.east ∧ c.west ≤ (l.foldl updatePos b).west := by
  induction l with
  | nil =>
    intro b c _ h1 h2 h3 h4
    exact ⟨h1, h2, h3, h4⟩
  | cons v l ih =>
    intro b c hc h1 h2 h3 h4
    have hstep : (updatePos b v).north ≤ c.north ∧ c.south ≤ (updatePos b v).south ∧
        (updatePos b v).east ≤ c.east ∧ c.west ≤ (updatePos b v).west := by
      rcases v with _ | ⟨lng, _ | ⟨lat, rest⟩⟩
      · exact ⟨h1, h2, h3, h4⟩
      · exact ⟨h1, h2, h3, h4⟩
      · obtain ⟨d1, d2, d3, d4⟩ := hc _ (List.mem_cons_self _ _) lng lat rest rfl
        exact ⟨max_le h1 d2, le_min h2 d1, max_le h3 d4, le_min h4 d3⟩
    rw [List.foldl_cons]
    exact ih (updatePos b v) c (fun w hw => hc w (List.mem_cons_of_mem v hw))
      hstep.1 hstep.2.1 hstep.2.2.1 hstep.2.2.2

theorem computeBounds_eq_fold (gs : List (List (List (List ℚ)))) :
    computeBounds gs = (ring0Verts gs).foldl updatePos seedBounds := by
  suffices h : ∀ (gs2 : List (List (List (List ℚ)))) (b : Bounds),
      gs2.foldl (fun b coords =>
        match coords with
        | [] => b
        | r0 :: _ => r0.foldl updatePos b) b = (ring0Verts gs2).foldl updatePos b by
    exact h gs seedBounds
  intro gs2
  induction gs2 with
  | nil =>
    intro b
    rfl
  | cons coords gs2 ih =>
    intro b
    rw [List.foldl_cons]
    cases coords with
    | nil =>
      rw [ih]
      unfold ring0Verts
      rw [List.map_cons, List.flatten_cons]
      rfl
    | cons r0 rs =>
      rw [ih]
      unfold ring0Verts
      rw [List.map_cons, List.flatten_cons, List.foldl_append]
      rfl

/-- The geometry set of the C8 counterexample: a single ring all of whose
vertices have latitude strictly above 90. -/
def outOfRangeGs : List (List (List (List ℚ))) := [[[[0, 95], [1, 95], [1, 96], [0, 95]]]]

/-- Counterexample for C8: on a ring whose latitudes all exceed 90, the
seeded fold yields `south = 90` (the seed), yet the box with `south = 95`
still contains every vertex, so the returned box is not the smallest
axis-aligned box containing every first-ring vertex. -/
theorem C8_counterexample : ¬ isSmallestBox (computeBounds outOfRangeGs) outOfRangeGs := by
  intro h
  have h2 := h.2 ⟨96, 95, 1, 0⟩ (by decide)
  have hb : computeBounds outOfRangeGs = ⟨96, 90, 1, 0⟩ := by decide
  rw [hb] at h2
  have : (95 : ℚ) ≤ 90 := h2.2.1
  norm_num at this

/-- C8 (amended): the bounds fold always returns a box containing every
(length-≥2) vertex of every first ring; an empty input yields the inverted
seed box `north = -90, south = 90, east = -180, west = 180`; and whenever
every first-ring vertex lies within the valid longitude/latitude ranges
and at least one such vertex exists, the returned box is the smallest
axis-aligned box containing them.  (For vertices outside the valid ranges
the seeds can make the box strictly larger than necessary.) -/
theorem C8_computeBounds_bounds :
    (∀ gs, containsAllVerts (computeBounds gs) gs) ∧
    computeBounds [] = seedBounds ∧
    (∀ gs, (∀ v ∈ ring0Verts gs, posInRange v) →
      (∃ v ∈ ring0Verts gs, 2 ≤ v.length) →
      isSmallestBox (computeBounds gs) gs) := by
  refine ⟨?_, rfl, ?_⟩
  · intro gs v hv
    rw [computeBounds_eq_fold]
    exact foldBounds_contains (ring0Verts gs) seedBounds v hv
  · intro gs hrange hex
    refine ⟨?_, ?_⟩
    · intro v hv
      rw [computeBounds_eq_fold]
      exact foldBounds_contains (ring0Verts gs) seedBounds v hv
    · intro c hc
      obtain ⟨v0, hv0, hlen⟩ := hex
      rcases v0 with _ | ⟨lng, _ | ⟨lat, rest⟩⟩
      · simp at hlen
      · simp at hlen
      · obtain ⟨d1, d2, d3, d4⟩ := hc _ hv0 lng lat rest rfl
        obtain ⟨r1, r2, r3, r4⟩ := hrange _ hv0 lng lat rest rfl
        rw [computeBounds_eq_fold]
        have hsn : seedBounds.north ≤ c.north := by
          have h0 : (-90 : ℚ) ≤ c.north := le_trans r3 d2
          simpa [seedBounds] using h0
        have hss : c.south ≤ seedBounds.south := by
          have h0 : c.south ≤ (90 : ℚ) := le_trans d1 r4
          simpa [seedBounds] using h0
        have hse : seedBounds.east ≤ c.east := by
          have h0 : (-180 : ℚ) ≤ c.east := le_trans r1 d4
          simpa [seedBounds] using h0
        have hsw : c.west ≤ seedBounds.west := by
          have h0 : c.west ≤ (180 : ℚ) := le_trans d3 r2
          simpa [seedBounds] using h0
        exact foldBounds_ub (ring0Verts gs) seedBounds c hc hsn hss hse hsw

/-- Witness for C8's amended theorem at a concrete in-range triangle ring
(and the empty input). -/
theorem C8_computeBounds_bounds_witness :
    containsAllVerts (computeBounds [[ringClosed]]) [[ringClosed]] ∧
    computeBounds [] = seedBounds ∧
    isSmallestBox (computeBounds [[ringClosed]]) [[ringClosed]] := by
  refine ⟨C8_computeBounds_bounds.1 [[ringClosed]], C8_computeBounds_bounds.2.1, ?_⟩
  refine C8_computeBounds_bounds.2.2 [[ringClosed]] ?_ ?_
  · decide
  · decide

/-! ### C10 -/

/-- C10: for every grouped input and every external area computation,
`getProjectStatistics` returns the per-project statistics sorted in
descending order of `calculatedAreaHectares` (each element's value is ≥
every later element's), and the output is a permutation of the unsorted
per-group statistics. -/
theorem C10_sorted_by_calculated_desc (turfArea : TurfArea)
    (groups : List (String × List CFeature)) :
    List.Sorted byCalcDesc (getProjectStatistics turfArea groups) ∧
    List.Perm (getProjectStatistics turfArea groups)
      (groups.map (fun g => statsFor turfArea g.1 g.2)) := by
  constructor
  · exact List.sorted_insertionSort byCalcDesc _
  · exact List.perm_insertionSort byCalcDesc _

end GeoJson
